import Mathlib

/-!
Verification of the AESI-MRP core: a hash-chained audit log paired with a
response-enforcement state machine, and of the `AnonymousReportForm`
front-end component.

The repository ships the core's declarations (README, API surface) but not
the files `backend/audit_log.py` and `backend/mrp_engine.py` themselves, so
the Audit Chain, Signal Record Store and their operations are modelled from
the specification.  The `AnonymousReportForm` component is embedded from its
React source.
-/

set_option maxHeartbeats 1000000

/-- Modelled from the spec: the three audit event types of `backend/audit_log.py`
(the file is absent from the repository snapshot). -/
inductive EventType where
  | SIGNAL_RECEIVED
  | INTERVENTION_LOGGED
  | ESCALATED_TO_TIER2
deriving DecidableEq

/-- Modelled from the spec: the hash values of the audit chain.  The spec's
cryptographic hash over `(prev_hash, signal_id, event_type, timestamp,
payload, sequence)` is modelled as a free (hence collision-free) constructor,
with a distinguished genesis constant for `sequence == 0`. -/
inductive Hash where
  | genesis : Hash
  | node (prev : Hash) (signal_id : String) (event_type : EventType)
      (timestamp : Nat) (payload : String) (sequence : Nat) : Hash
deriving DecidableEq

/-- Modelled from the spec: one committed audit entry of `backend/audit_log.py`. -/
@[ext]
structure AuditEntry where
  sequence : Nat
  signal_id : String
  event_type : EventType
  timestamp : Nat
  payload : String
  prev_hash : Hash
  hash : Hash
deriving DecidableEq

/-- Modelled from the spec: the audit chain state — the committed entries in
commit order together with the current chain head. -/
structure Chain where
  entries : List AuditEntry
  head : Hash
deriving DecidableEq

def Chain.empty : Chain := { entries := [], head := Hash.genesis }

/-- Modelled from the spec: `append(signal_id, event_type, payload, timestamp)`
computes `prev_hash` from the current head, constructs the entry, computes its
hash, persists it and advances the head; returns the committed entry. -/
def Chain.appendEntry (c : Chain) (signal_id : String) (event_type : EventType)
    (payload : String) (timestamp : Nat) : AuditEntry × Chain :=
  let seq := c.entries.length
  let h := Hash.node c.head signal_id event_type timestamp payload seq
  let e : AuditEntry :=
    { sequence := seq, signal_id := signal_id, event_type := event_type,
      timestamp := timestamp, payload := payload, prev_hash := c.head, hash := h }
  (e, { entries := c.entries ++ [e], head := h })

/-- The state of the chain after one append. -/
def Chain.push (c : Chain) (signal_id : String) (event_type : EventType)
    (payload : String) (timestamp : Nat) : Chain :=
  (c.appendEntry signal_id event_type payload timestamp).2

/-- Chain states reachable from the empty chain by append operations only. -/
inductive ChainReachable : Chain → Prop
  | init : ChainReachable Chain.empty
  | push (c : Chain) (sid : String) (et : EventType) (pay : String) (ts : Nat) :
      ChainReachable c → ChainReachable (c.push sid et pay ts)

/-- Result of `verify()`. -/
structure VerifyResult where
  valid : Bool
  brokenAt : Option Nat
deriving DecidableEq

/-- Modelled from the spec: the recursive core of `verify()` — walk the entries
in order with the running predecessor hash, recompute each entry's hash from
its stored fields and check `prev_hash` linkage; report the first index where
stored data disagrees. -/
def verifyFrom (prev : Hash) (idx : Nat) : List AuditEntry → VerifyResult
  | [] => { valid := true, brokenAt := none }
  | e :: rest =>
    if e.prev_hash = prev ∧
        e.hash = Hash.node e.prev_hash e.signal_id e.event_type e.timestamp
          e.payload e.sequence then
      verifyFrom e.hash (idx + 1) rest
    else
      { valid := false, brokenAt := some idx }

/-- Modelled from the spec: `verify() -> {valid, brokenAt}`; a total function,
so it never throws on tampered data. -/
def Chain.verify (c : Chain) : VerifyResult :=
  verifyFrom Hash.genesis 0 c.entries

/-- Well-formedness of a run of entries: starting from predecessor hash `prev`
at position `idx`, sequences are consecutive, each entry links to its
predecessor, each hash is the hash of the stored fields, and `hd` is the hash
of the last entry (or `prev` when the run is empty). -/
def entriesWF (prev : Hash) (idx : Nat) : List AuditEntry → Hash → Prop
  | [], hd => hd = prev
  | e :: rest, hd =>
      e.sequence = idx ∧ e.prev_hash = prev ∧
      e.hash = Hash.node prev e.signal_id e.event_type e.timestamp e.payload idx ∧
      entriesWF e.hash (idx + 1) rest hd

def ChainWF (c : Chain) : Prop := entriesWF Hash.genesis 0 c.entries c.head

/-- `e'` is `e` with a single stored field mutated: the two entries differ,
and all fields but the named one are unchanged. -/
def OneFieldDiff (e e' : AuditEntry) : Prop :=
  e ≠ e' ∧
  ((e'.signal_id = e.signal_id ∧ e'.event_type = e.event_type ∧
      e'.timestamp = e.timestamp ∧ e'.payload = e.payload ∧
      e'.prev_hash = e.prev_hash ∧ e'.hash = e.hash) ∨
   (e'.sequence = e.sequence ∧ e'.event_type = e.event_type ∧
      e'.timestamp = e.timestamp ∧ e'.payload = e.payload ∧
      e'.prev_hash = e.prev_hash ∧ e'.hash = e.hash) ∨
   (e'.sequence = e.sequence ∧ e'.signal_id = e.signal_id ∧
      e'.timestamp = e.timestamp ∧ e'.payload = e.payload ∧
      e'.prev_hash = e.prev_hash ∧ e'.hash = e.hash) ∨
   (e'.sequence = e.sequence ∧ e'.signal_id = e.signal_id ∧
      e'.event_type = e.event_type ∧ e'.payload = e.payload ∧
      e'.prev_hash = e.prev_hash ∧ e'.hash = e.hash) ∨
   (e'.sequence = e.sequence ∧ e'.signal_id = e.signal_id ∧
      e'.event_type = e.event_type ∧ e'.timestamp = e.timestamp ∧
      e'.prev_hash = e.prev_hash ∧ e'.hash = e.hash) ∨
   (e'.sequence = e.sequence ∧ e'.signal_id = e.signal_id ∧
      e'.event_type = e.event_type ∧ e'.timestamp = e.timestamp ∧
      e'.payload = e.payload ∧ e'.hash = e.hash) ∨
   (e'.sequence = e.sequence ∧ e'.signal_id = e.signal_id ∧
      e'.event_type = e.event_type ∧ e'.timestamp = e.timestamp ∧
      e'.payload = e.payload ∧ e'.prev_hash = e.prev_hash))

lemma entriesWF_append (l : List AuditEntry) : ∀ (prev : Hash) (idx : Nat)
    (hd : Hash) (e : AuditEntry), entriesWF prev idx l hd →
    e.sequence = idx + l.length → e.prev_hash = hd →
    e.hash = Hash.node hd e.signal_id e.event_type e.timestamp e.payload e.sequence →
    entriesWF prev idx (l ++ [e]) e.hash := by
  induction l with
  | nil =>
      intro prev idx hd e hwf hseq hprev hhash
      simp only [entriesWF] at hwf
      subst hwf
      simp only [List.nil_append, entriesWF, List.length_nil, Nat.add_zero] at *
      exact ⟨hseq, hprev, by rw [hhash, hseq], by trivial⟩
  | cons a rest ih =>
      intro prev idx hd e hwf hseq hprev hhash
      obtain ⟨h1, h2, h3, h4⟩ := hwf
      refine ⟨h1, h2, h3, ?_⟩
      exact ih a.hash (idx + 1) hd e h4 (by simp [hseq]; omega) hprev hhash

lemma chainWF_push (c : Chain) (sid : String) (et : EventType) (pay : String)
    (ts : Nat) (h : ChainWF c) : ChainWF (c.push sid et pay ts) := by
  unfold ChainWF Chain.push Chain.appendEntry at *
  exact entriesWF_append c.entries Hash.genesis 0 c.head _ h (by simp) rfl rfl

lemma chainWF_of_reachable (c : Chain) (h : ChainReachable c) : ChainWF c := by
  induction h with
  | init => exact rfl
  | push c sid et pay ts _ ih => exact chainWF_push c sid et pay ts ih

lemma entriesWF_seq (l : List AuditEntry) : ∀ (prev : Hash) (idx : Nat)
    (hd : Hash), entriesWF prev idx l hd →
    ∀ (n : Nat) (hn : n < l.length), (l.get ⟨n, hn⟩).sequence = idx + n := by
  induction l with
  | nil => intro _ _ _ _ n hn; simp at hn
  | cons a rest ih =>
      intro prev idx hd hwf n hn
      obtain ⟨h1, _, _, h4⟩ := hwf
      cases n with
      | zero => simpa using h1
      | succ m =>
          have := ih a.hash (idx + 1) hd h4 m (by simpa using Nat.lt_of_succ_lt_succ hn)
          simpa [List.get, Nat.add_comm, Nat.add_assoc, Nat.add_left_comm] using this

lemma entriesWF_link (l : List AuditEntry) : ∀ (prev : Hash) (idx : Nat)
    (hd : Hash), entriesWF prev idx l hd →
    ∀ (n : Nat) (hn : n + 1 < l.length) (hn' : n < l.length),
      (l.get ⟨n + 1, hn⟩).prev_hash = (l.get ⟨n, hn'⟩).hash := by
  induction l with
  | nil => intro _ _ _ _ n hn; simp at hn
  | cons a rest ih =>
      intro prev idx hd hwf n hn hn'
      obtain ⟨_, _, _, h4⟩ := hwf
      cases n with
      | zero =>
          cases rest with
          | nil => simp at hn
          | cons b rest' =>
              obtain ⟨_, hb, _, _⟩ := h4
              simpa using hb
      | succ m =>
          have := ih a.hash (idx + 1) hd h4 m (by simpa using Nat.lt_of_succ_lt_succ hn)
            (by simpa using Nat.lt_of_succ_lt_succ hn')
          simpa using this

lemma verifyFrom_of_wf (l : List AuditEntry) : ∀ (prev : Hash) (idx : Nat)
    (hd : Hash), entriesWF prev idx l hd →
    verifyFrom prev idx l = { valid := true, brokenAt := none } := by
  induction l with
  | nil => intro _ _ _ _; rfl
  | cons a rest ih =>
      intro prev idx hd hwf
      obtain ⟨h1, h2, h3, h4⟩ := hwf
      unfold verifyFrom
      rw [if_pos ⟨h2, by rw [h3, h2, h1]⟩]
      exact ih a.hash (idx + 1) hd h4

lemma check_fails_of_diff (prev : Hash) (idx : Nat) (e e' : AuditEntry)
    (hseq : e.sequence = idx) (hprev : e.prev_hash = prev)
    (hhash : e.hash = Hash.node prev e.signal_id e.event_type e.timestamp e.payload idx)
    (hd : OneFieldDiff e e') :
    ¬ (e'.prev_hash = prev ∧
        e'.hash = Hash.node e'.prev_hash e'.signal_id e'.event_type e'.timestamp
          e'.payload e'.sequence) := by
  obtain ⟨hne, hcase⟩ := hd
  rintro ⟨hp, hh⟩
  apply hne
  rcases hcase with h | h | h | h | h | h | h
  case inr.inr.inr.inr.inr.inr =>
    obtain ⟨q1, q2, q3, q4, q5, q6⟩ := h
    ext
    · rw [q1]
    · rw [q2]
    · rw [q3]
    · rw [q4]
    · rw [q5]
    · rw [q6]
    · rw [hh, q1, q2, q3, q4, q5, q6, hprev, hseq, ← hhash]
  all_goals
    have q6 := h.2.2.2.2.2
    have key : Hash.node prev e.signal_id e.event_type e.timestamp e.payload idx
        = Hash.node e'.prev_hash e'.signal_id e'.event_type e'.timestamp
            e'.payload e'.sequence := by
      rw [← hhash, ← q6, hh]
    injection key with k1 k2 k3 k4 k5 k6
    ext
    · rw [hseq, k6]
    · rw [k2]
    · rw [k3]
    · rw [k4]
    · rw [k5]
    · rw [hprev, k1]
    · rw [q6]

lemma verifyFrom_set_broken (l : List AuditEntry) : ∀ (prev : Hash) (idx : Nat)
    (hd : Hash) (n : Nat) (hn : n < l.length) (e' : AuditEntry),
    entriesWF prev idx l hd → OneFieldDiff (l.get ⟨n, hn⟩) e' →
    verifyFrom prev idx (l.set n e') = { valid := false, brokenAt := some (idx + n) } := by
  induction l with
  | nil => intro _ _ _ n hn; simp at hn
  | cons a rest ih =>
      intro prev idx hd n hn e' hwf hdiff
      obtain ⟨h1, h2, h3, h4⟩ := hwf
      cases n with
      | zero =>
          simp only [List.set]
          unfold verifyFrom
          rw [if_neg (check_fails_of_diff prev idx a e' h1 h2 h3 (by simpa using hdiff))]
          simp
      | succ m =>
          simp only [List.set]
          unfold verifyFrom
          rw [if_pos ⟨h2, by rw [h3, h2, h1]⟩]
          have := ih a.hash (idx + 1) hd m (by simpa using Nat.lt_of_succ_lt_succ hn) e'
            h4 (by simpa using hdiff)
          rw [this]
          simp [Nat.add_comm, Nat.add_assoc, Nat.add_left_comm]

/-- Gaplessness, hash linkage and append-only growth of a chain state. -/
def GaplessLinked (c : Chain) : Prop :=
  (∀ (n : Nat) (hn : n < c.entries.length), (c.entries.get ⟨n, hn⟩).sequence = n) ∧
  (∀ (n : Nat) (hn : n + 1 < c.entries.length) (hn' : n < c.entries.length),
    (c.entries.get ⟨n + 1, hn⟩).prev_hash = (c.entries.get ⟨n, hn'⟩).hash) ∧
  (∀ (sid : String) (et : EventType) (pay : String) (ts : Nat),
    (c.push sid et pay ts).entries = c.entries ++ [(c.appendEntry sid et pay ts).1])

/-- `verify()` accepts the chain as stored, and flags position `n` after any
single-field mutation of the entry at position `n`. -/
def VerifyDetects (c : Chain) : Prop :=
  Chain.verify c = { valid := true, brokenAt := none } ∧
  (∀ (n : Nat) (hn : n < c.entries.length) (e' : AuditEntry),
    OneFieldDiff (c.entries.get ⟨n, hn⟩) e' →
    Chain.verify { c with entries := c.entries.set n e' }
      = { valid := false, brokenAt := some ((c.entries.get ⟨n, hn⟩).sequence) })

/-- C1: for every chain state reachable by any sequence of append operations,
the audit chain is gapless and hash-linked — the entry at position `n` has
`sequence = n`, and for `n > 0` its `prev_hash` equals the hash of the entry
at position `n - 1`; moreover the only mutating operation, `append`, extends
the entry list on the right, so no committed entry is ever mutated or removed
by any later operation. -/
theorem audit_chain_gapless_hash_linked (c : Chain) (hc : ChainReachable c) :
    GaplessLinked c := by
  have hwf := chainWF_of_reachable c hc
  refine ⟨?_, ?_, ?_⟩
  · intro n hn
    simpa using entriesWF_seq c.entries Hash.genesis 0 c.head hwf n hn
  · intro n hn hn'
    exact entriesWF_link c.entries Hash.genesis 0 c.head hwf n hn hn'
  · intro sid et pay ts
    rfl

/-- A two-entry example chain built by appends only. -/
def chainEx : Chain :=
  (Chain.empty.push "S1" EventType.SIGNAL_RECEIVED "payload-a" 5).push
    "S1" EventType.INTERVENTION_LOGGED "payload-b" 120

lemma chainEx_reachable : ChainReachable chainEx :=
  ChainReachable.push _ _ _ _ _
    (ChainReachable.push _ _ _ _ _ ChainReachable.init)

/-- C1 witness: the invariants hold on a concrete two-entry chain. -/
theorem audit_chain_gapless_hash_linked_witness :
    ChainReachable chainEx ∧ GaplessLinked chainEx :=
  ⟨chainEx_reachable, audit_chain_gapless_hash_linked chainEx chainEx_reachable⟩

/-- C2: for every chain produced only by appends, `verify()` returns
`valid = true`; after mutating any single field of any one historical entry,
`verify()` returns `valid = false` with `brokenAt` equal to that entry's
sequence (the first index at which recomputation or linkage disagrees with
the stored data).  `verify` is a total function, so it never throws on
tampered data. -/
theorem audit_verify_detects_tampering (c : Chain) (hc : ChainReachable c) :
    VerifyDetects c := by
  have hwf := chainWF_of_reachable c hc
  constructor
  · exact verifyFrom_of_wf c.entries Hash.genesis 0 c.head hwf
  · intro n hn e' hdiff
    have hseq := entriesWF_seq c.entries Hash.genesis 0 c.head hwf n hn
    have hb := verifyFrom_set_broken c.entries Hash.genesis 0 c.head n hn e' hwf hdiff
    unfold Chain.verify
    rw [show ({ c with entries := c.entries.set n e' } : Chain).entries
        = c.entries.set n e' from rfl, hb, hseq]

/-- C2 witness: verification succeeds on a concrete chain and flags a
concrete payload mutation of entry 0. -/
theorem audit_verify_detects_tampering_witness :
    ChainReachable chainEx ∧ VerifyDetects chainEx :=
  ⟨chainEx_reachable, audit_verify_detects_tampering chainEx chainEx_reachable⟩

/-- Modelled from the spec: the Signal severity enum of `backend/mrp_engine.py`. -/
inductive Severity where
  | HIGH
  | CRITICAL
deriving DecidableEq

/-- Modelled from the spec: the three lifecycle states of a Signal. -/
inductive Status where
  | PENDING
  | RESOLVED
  | ESCALATED
deriving DecidableEq

/-- Modelled from the spec: resolution details, present only when `RESOLVED`. -/
structure Resolution where
  action : String
  staff_id : String
  notes : Option String
  resolved_at : Nat
deriving DecidableEq

/-- Modelled from the spec: escalation details, present only when `ESCALATED`. -/
structure Escalation where
  escalated_at : Nat
  tier : Nat
deriving DecidableEq

/-- Modelled from the spec: a Signal record of `backend/mrp_engine.py`. -/
structure Signal where
  id : String
  subject_id : String
  risk_type : String
  severity : Severity
  description : String
  detected_by : String
  status : Status
  created_at : Nat
  deadline : Nat
  resolution : Option Resolution
  escalation : Option Escalation
deriving DecidableEq

/-- Modelled from the spec: the raw intake payload produced upstream. -/
structure IntakePayload where
  subject_id : String
  risk_type : String
  severity : String
  description : String
  detected_by : String
deriving DecidableEq

/-- Modelled from the spec: the error taxonomy surfaced by the Store. -/
inductive MRPError where
  | ValidationError
  | NotFound
  | AlreadyTerminal
deriving DecidableEq

deriving instance DecidableEq for Except

/-- Modelled from the spec: the shared mutable state — Signals keyed by id,
the audit chain, and the Escalation Scheduler's timers keyed by signal id. -/
structure SystemState where
  signals : List (String × Signal)
  chain : Chain
  timers : List (String × Nat)
deriving DecidableEq

def initState : SystemState :=
  { signals := [], chain := Chain.empty, timers := [] }

def lookupSig : List (String × Signal) → String → Option Signal
  | [], _ => none
  | (k, v) :: rest, i => if k = i then some v else lookupSig rest i

def updateSig : List (String × Signal) → String → Signal → List (String × Signal)
  | [], _, _ => []
  | (k, v) :: rest, i, s => if k = i then (k, s) :: rest else (k, v) :: updateSig rest i s

def removeTimer (l : List (String × Nat)) (i : String) : List (String × Nat) :=
  l.filter (fun kv => kv.1 != i)

/-- Modelled from the spec: the fixed, non-configurable response window
(default 10 minutes = 600 seconds). -/
def FIXED_TIMEOUT : Nat := 600

/-- Modelled from the spec: intake validation — non-empty subject and
description, severity in HIGH or CRITICAL. -/
def validPayload (p : IntakePayload) : Bool :=
  decide (p.subject_id ≠ "" ∧ p.description ≠ "" ∧
    (p.severity = "HIGH" ∨ p.severity = "CRITICAL"))

/-- Canonical serialization of the intake payload carried by a
`SIGNAL_RECEIVED` audit entry. -/
def encodeIntake (p : IntakePayload) : String :=
  p.subject_id ++ "|" ++ p.risk_type ++ "|" ++ p.severity ++ "|" ++
    p.description ++ "|" ++ p.detected_by

/-- Canonical serialization of intervention details. -/
def encodeIntervention (action staff_id : String) (notes : Option String) : String :=
  action ++ "|" ++ staff_id ++ "|" ++ notes.getD ""

/-- Canonical serialization of escalation details. -/
def encodeEscalation (now : Nat) : String :=
  "tier2|" ++ toString now

/-- The Signal created at intake: `PENDING`, `deadline = now + FIXED_TIMEOUT`. -/
def mkSignal (newId : String) (now : Nat) (p : IntakePayload) : Signal :=
  { id := newId, subject_id := p.subject_id, risk_type := p.risk_type,
    severity := if p.severity = "CRITICAL" then Severity.CRITICAL else Severity.HIGH,
    description := p.description, detected_by := p.detected_by,
    status := Status.PENDING, created_at := now, deadline := now + FIXED_TIMEOUT,
    resolution := none, escalation := none }

/-- Modelled from the spec: `intake(payload) -> Signal`.  Validates the
payload; on success creates a `PENDING` Signal, appends a `SIGNAL_RECEIVED`
audit entry carrying the payload, registers a deadline timer and returns the
Signal; on a malformed payload fails with `ValidationError` before any state
or audit mutation.  The caller-supplied fresh id and clock stand for the
engine's id assignment and wall clock. -/
def intakeState (st : SystemState) (newId : String) (now : Nat)
    (p : IntakePayload) : SystemState :=
  { signals := (newId, mkSignal newId now p) :: st.signals,
    chain := st.chain.push newId EventType.SIGNAL_RECEIVED (encodeIntake p) now,
    timers := (newId, now + FIXED_TIMEOUT) :: st.timers }

def intake (st : SystemState) (newId : String) (now : Nat) (p : IntakePayload) :
    Except MRPError Signal × SystemState :=
  if validPayload p then
    (Except.ok (mkSignal newId now p), intakeState st newId now p)
  else
    (Except.error MRPError.ValidationError, st)

/-- The Signal after a successful intervention: `RESOLVED` with the given
resolution fields and the current timestamp. -/
def resolvedSig (s : Signal) (action staff_id : String) (notes : Option String)
    (now : Nat) : Signal :=
  { s with
    status := Status.RESOLVED
    resolution := some { action := action, staff_id := staff_id,
                         notes := notes, resolved_at := now } }

/-- The system state after a successful intervention on signal `i`: record
updated, `INTERVENTION_LOGGED` entry appended, timer removed. -/
def interveneState (st : SystemState) (i action staff_id : String)
    (notes : Option String) (now : Nat) (s : Signal) : SystemState :=
  { signals := updateSig st.signals i (resolvedSig s action staff_id notes now),
    chain := st.chain.push i EventType.INTERVENTION_LOGGED
      (encodeIntervention action staff_id notes) now,
    timers := removeTimer st.timers i }

/-- Modelled from the spec: `recordIntervention(signal_id, action, staff_id,
notes?) -> Signal`.  Succeeds only if the Signal exists and is `PENDING`:
atomically cancels the timer, transitions to `RESOLVED` with the resolution
fields, and appends an `INTERVENTION_LOGGED` audit entry.  Fails with
`NotFound` for an unknown id and `AlreadyTerminal` when status is not
`PENDING`. -/
def recordIntervention (st : SystemState) (i action staff_id : String)
    (notes : Option String) (now : Nat) : Except MRPError Signal × SystemState :=
  match lookupSig st.signals i with
  | none => (Except.error MRPError.NotFound, st)
  | some s =>
    if s.status = Status.PENDING then
      (Except.ok (resolvedSig s action staff_id notes now),
        interveneState st i action staff_id notes now s)
    else
      (Except.error MRPError.AlreadyTerminal, st)

/-- The Signal after a successful escalation: `ESCALATED` to tier 2 at the
firing time. -/
def escalatedSig (s : Signal) (now : Nat) : Signal :=
  { s with
    status := Status.ESCALATED
    escalation := some { escalated_at := now, tier := 2 } }

/-- The system state after a successful escalation of signal `i`. -/
def escalateState (st : SystemState) (i : String) (now : Nat) (s : Signal) :
    SystemState :=
  { signals := updateSig st.signals i (escalatedSig s now),
    chain := st.chain.push i EventType.ESCALATED_TO_TIER2 (encodeEscalation now) now,
    timers := removeTimer st.timers i }

/-- Modelled from the spec: `escalate(signal_id) -> Signal`, invoked by the
Escalation Scheduler at deadline fire.  Succeeds only if the Signal is still
`PENDING`: atomically transitions to `ESCALATED` (target tier 2) and appends
an `ESCALATED_TO_TIER2` audit entry.  When the Signal is unknown or no longer
`PENDING` it is a no-op, not an error. -/
def escalate (st : SystemState) (i : String) (now : Nat) :
    Option Signal × SystemState :=
  match lookupSig st.signals i with
  | none => (none, st)
  | some s =>
    if s.status = Status.PENDING then
      (some (escalatedSig s now), escalateState st i now s)
    else
      (none, st)

/-- Modelled from the spec: the read-only query `get(signal_id)`. -/
def getSignal (st : SystemState) (i : String) : Option Signal :=
  lookupSig st.signals i

/-- Modelled from the spec: `listPending()`. -/
def listPending (st : SystemState) : List Signal :=
  (st.signals.filter (fun kv => kv.2.status == Status.PENDING)).map (fun kv => kv.2)

/-- Modelled from the spec: `listAll()`. -/
def listAll (st : SystemState) : List Signal :=
  st.signals.map (fun kv => kv.2)

/-- One successful mutating operation of the core.  Intake is invoked with an
id not yet in the store (the engine assigns fresh ids).  Failed operations
return the state unchanged and so contribute no step. -/
inductive SysStep : SystemState → SystemState → Prop
  | intakeStep (st : SystemState) (newId : String) (now : Nat) (p : IntakePayload)
      (s : Signal) (st' : SystemState) :
      lookupSig st.signals newId = none →
      intake st newId now p = (Except.ok s, st') → SysStep st st'
  | interveneStep (st : SystemState) (i action staff_id : String)
      (notes : Option String) (now : Nat) (s : Signal) (st' : SystemState) :
      recordIntervention st i action staff_id notes now = (Except.ok s, st') →
      SysStep st st'
  | escalateStep (st : SystemState) (i : String) (now : Nat) (s : Signal)
      (st' : SystemState) :
      escalate st i now = (some s, st') → SysStep st st'

/-- System states reachable from the initial empty state by successful
operations. -/
inductive SysReachable : SystemState → Prop
  | init : SysReachable initState
  | step (st st' : SystemState) : SysReachable st → SysStep st st' → SysReachable st'

lemma lookupSig_update_self (l : List (String × Signal)) (i : String)
    (s s' : Signal) (h : lookupSig l i = some s) :
    lookupSig (updateSig l i s') i = some s' := by
  induction l with
  | nil => simp [lookupSig] at h
  | cons kv rest ih =>
      obtain ⟨k, v⟩ := kv
      by_cases hk : k = i
      · simp [lookupSig, updateSig, hk]
      · simp only [lookupSig, updateSig, if_neg hk] at h ⊢
        exact ih h

lemma lookupSig_update_other (l : List (String × Signal)) (i j : String)
    (s' : Signal) (h : j ≠ i) :
    lookupSig (updateSig l i s') j = lookupSig l j := by
  induction l with
  | nil => rfl
  | cons kv rest ih =>
      obtain ⟨k, v⟩ := kv
      by_cases hk : k = i
      · subst hk
        simp [updateSig, lookupSig, Ne.symm h]
      · by_cases hkj : k = j
        · subst hkj
          simp [updateSig, lookupSig, hk]
        · simp [updateSig, lookupSig, hk, hkj, ih]

/-- Does an audit entry concern signal `i` with event type `et`? -/
def entryMatches (i : String) (et : EventType) (e : AuditEntry) : Bool :=
  decide (e.signal_id = i ∧ e.event_type = et)

/-- Number of committed audit entries for signal `i` with event type `et`. -/
def countFor (c : Chain) (i : String) (et : EventType) : Nat :=
  (c.entries.filter (entryMatches i et)).length

lemma countFor_push (c : Chain) (sid : String) (et' : EventType) (pay : String)
    (ts : Nat) (i : String) (et : EventType) :
    countFor (c.push sid et' pay ts) i et =
      countFor c i et + (if sid = i ∧ et' = et then 1 else 0) := by
  unfold countFor Chain.push Chain.appendEntry
  by_cases h : sid = i ∧ et' = et
  · simp [List.filter_append, entryMatches, h.1, h.2]
  · simp only [List.filter_append, List.length_append, if_neg h]
    have : entryMatches i et
        { sequence := c.entries.length, signal_id := sid, event_type := et',
          timestamp := ts, payload := pay, prev_hash := c.head,
          hash := Hash.node c.head sid et' ts pay c.entries.length } = false := by
      simp [entryMatches]
      intro h1 h2
      exact h ⟨h1, h2⟩
    simp [this]

lemma intake_valid_eq (st : SystemState) (newId : String) (now : Nat)
    (p : IntakePayload) (hv : validPayload p = true) :
    intake st newId now p =
      (Except.ok (mkSignal newId now p), intakeState st newId now p) := by
  unfold intake
  rw [hv]
  rfl

lemma intake_invalid_eq (st : SystemState) (newId : String) (now : Nat)
    (p : IntakePayload) (hv : validPayload p = false) :
    intake st newId now p = (Except.error MRPError.ValidationError, st) := by
  unfold intake
  rw [hv]
  rfl

lemma recordIntervention_notFound (st : SystemState) (i action staff_id : String)
    (notes : Option String) (now : Nat) (h : lookupSig st.signals i = none) :
    recordIntervention st i action staff_id notes now =
      (Except.error MRPError.NotFound, st) := by
  unfold recordIntervention
  rw [h]

lemma recordIntervention_terminal (st : SystemState) (i action staff_id : String)
    (notes : Option String) (now : Nat) (s : Signal)
    (h : lookupSig st.signals i = some s) (hst : s.status ≠ Status.PENDING) :
    recordIntervention st i action staff_id notes now =
      (Except.error MRPError.AlreadyTerminal, st) := by
  unfold recordIntervention
  rw [h]
  simp [hst]

lemma recordIntervention_pending (st : SystemState) (i action staff_id : String)
    (notes : Option String) (now : Nat) (s : Signal)
    (h : lookupSig st.signals i = some s) (hst : s.status = Status.PENDING) :
    recordIntervention st i action staff_id notes now =
      (Except.ok (resolvedSig s action staff_id notes now),
        interveneState st i action staff_id notes now s) := by
  unfold recordIntervention
  rw [h]
  simp [hst]

lemma escalate_notFound (st : SystemState) (i : String) (now : Nat)
    (h : lookupSig st.signals i = none) : escalate st i now = (none, st) := by
  unfold escalate
  rw [h]

lemma escalate_terminal (st : SystemState) (i : String) (now : Nat) (s : Signal)
    (h : lookupSig st.signals i = some s) (hst : s.status ≠ Status.PENDING) :
    escalate st i now = (none, st) := by
  unfold escalate
  rw [h]
  simp [hst]

lemma escalate_pending (st : SystemState) (i : String) (now : Nat) (s : Signal)
    (h : lookupSig st.signals i = some s) (hst : s.status = Status.PENDING) :
    escalate st i now = (some (escalatedSig s now), escalateState st i now s) := by
  unfold escalate
  rw [h]
  simp [hst]

/-- Consistency of a Signal record: resolution and escalation details are
present exactly for the corresponding terminal state. -/
def SigConsistent (s : Signal) : Prop :=
  (s.status = Status.PENDING → s.resolution = none ∧ s.escalation = none) ∧
  (s.status = Status.RESOLVED → s.resolution.isSome ∧ s.escalation = none) ∧
  (s.status = Status.ESCALATED → s.escalation.isSome ∧ s.resolution = none)

/-- The global system invariant: the chain is well formed, every stored
Signal is keyed by its own id and internally consistent, and audit entry
counts pair 1:1 with the transitions each signal has undergone. -/
def SysInv (st : SystemState) : Prop :=
  ChainWF st.chain ∧
  (∀ (i : String) (s : Signal), lookupSig st.signals i = some s →
    s.id = i ∧ SigConsistent s) ∧
  (∀ i : String, countFor st.chain i EventType.SIGNAL_RECEIVED =
    (if (lookupSig st.signals i).isSome then 1 else 0)) ∧
  (∀ i : String, countFor st.chain i EventType.INTERVENTION_LOGGED =
    (match lookupSig st.signals i with
     | some s => if s.status = Status.RESOLVED then 1 else 0
     | none => 0)) ∧
  (∀ i : String, countFor st.chain i EventType.ESCALATED_TO_TIER2 =
    (match lookupSig st.signals i with
     | some s => if s.status = Status.ESCALATED then 1 else 0
     | none => 0))

lemma sysInv_init : SysInv initState := by
  refine ⟨rfl, ?_, ?_, ?_, ?_⟩ <;> intro i <;> simp [lookupSig, countFor, initState, Chain.empty]

lemma sysInv_intake (st : SystemState) (newId : String) (now : Nat)
    (p : IntakePayload) (hinv : SysInv st)
    (hfresh : lookupSig st.signals newId = none) :
    SysInv (intakeState st newId now p) := by
  obtain ⟨hwf, hids, hrec, hint, hesc⟩ := hinv
  refine ⟨chainWF_push _ _ _ _ _ hwf, ?_, ?_, ?_, ?_⟩
  · intro j s hj
    simp only [intakeState, lookupSig] at hj
    by_cases hji : newId = j
    · rw [if_pos hji] at hj
      injection hj with hj
      subst hj
      refine ⟨hji, ?_⟩
      simp [SigConsistent, mkSignal]
    · rw [if_neg hji] at hj
      exact hids j s hj
  · intro j
    rw [show (intakeState st newId now p).chain
        = st.chain.push newId EventType.SIGNAL_RECEIVED (encodeIntake p) now from rfl,
      countFor_push, hrec j]
    simp only [intakeState, lookupSig]
    by_cases hji : newId = j
    · subst hji
      simp [hfresh]
    · simp [hji]
  · intro j
    rw [show (intakeState st newId now p).chain
        = st.chain.push newId EventType.SIGNAL_RECEIVED (encodeIntake p) now from rfl,
      countFor_push, hint j]
    simp only [intakeState, lookupSig]
    by_cases hji : newId = j
    · subst hji
      simp [hfresh, mkSignal]
    · simp [hji]
  · intro j
    rw [show (intakeState st newId now p).chain
        = st.chain.push newId EventType.SIGNAL_RECEIVED (encodeIntake p) now from rfl,
      countFor_push, hesc j]
    simp only [intakeState, lookupSig]
    by_cases hji : newId = j
    · subst hji
      simp [hfresh, mkSignal]
    · simp [hji]

lemma sysInv_intervene (st : SystemState) (i action staff_id : String)
    (notes : Option String) (now : Nat) (s : Signal) (hinv : SysInv st)
    (hl : lookupSig st.signals i = some s) (hp : s.status = Status.PENDING) :
    SysInv (interveneState st i action staff_id notes now s) := by
  obtain ⟨hwf, hids, hrec, hint, hesc⟩ := hinv
  have hid := (hids i s hl).1
  have hcons := (hids i s hl).2
  have hesc0 : s.escalation = none := (hcons.1 hp).2
  refine ⟨chainWF_push _ _ _ _ _ hwf, ?_, ?_, ?_, ?_⟩
  · intro j s₂ hj
    rw [show (interveneState st i action staff_id notes now s).signals
        = updateSig st.signals i (resolvedSig s action staff_id notes now) from rfl] at hj
    by_cases hji : j = i
    · subst hji
      rw [lookupSig_update_self st.signals j s _ hl] at hj
      injection hj with hj
      subst hj
      refine ⟨hid, ?_⟩
      simp [SigConsistent, resolvedSig, hesc0]
    · rw [lookupSig_update_other st.signals i j _ hji] at hj
      exact hids j s₂ hj
  · intro j
    rw [show (interveneState st i action staff_id notes now s).chain
        = st.chain.push i EventType.INTERVENTION_LOGGED
          (encodeIntervention action staff_id notes) now from rfl,
      countFor_push, hrec j]
    rw [show (interveneState st i action staff_id notes now s).signals
        = updateSig st.signals i (resolvedSig s action staff_id notes now) from rfl]
    by_cases hji : j = i
    · subst hji
      rw [lookupSig_update_self st.signals j s _ hl]
      simp [hl]
    · rw [lookupSig_update_other st.signals i j _ hji]
      simp
  · intro j
    rw [show (interveneState st i action staff_id notes now s).chain
        = st.chain.push i EventType.INTERVENTION_LOGGED
          (encodeIntervention action staff_id notes) now from rfl,
      countFor_push, hint j]
    rw [show (interveneState st i action staff_id notes now s).signals
        = updateSig st.signals i (resolvedSig s action staff_id notes now) from rfl]
    by_cases hji : j = i
    · subst hji
      rw [lookupSig_update_self st.signals j s _ hl, hl]
      simp [hp, resolvedSig]
    · rw [lookupSig_update_other st.signals i j _ hji]
      simp [show ¬ (i = j) from fun e => hji e.symm]
  · intro j
    rw [show (interveneState st i action staff_id notes now s).chain
        = st.chain.push i EventType.INTERVENTION_LOGGED
          (encodeIntervention action staff_id notes) now from rfl,
      countFor_push, hesc j]
    rw [show (interveneState st i action staff_id notes now s).signals
        = updateSig st.signals i (resolvedSig s action staff_id notes now) from rfl]
    by_cases hji : j = i
    · subst hji
      rw [lookupSig_update_self st.signals j s _ hl, hl]
      simp [hp, resolvedSig]
    · rw [lookupSig_update_other st.signals i j _ hji]
      simp

lemma sysInv_escalate (st : SystemState) (i : String) (now : Nat) (s : Signal)
    (hinv : SysInv st) (hl : lookupSig st.signals i = some s)
    (hp : s.status = Status.PENDING) : SysInv (escalateState st i now s) := by
  obtain ⟨hwf, hids, hrec, hint, hesc⟩ := hinv
  have hid := (hids i s hl).1
  have hcons := (hids i s hl).2
  have hres0 : s.resolution = none := (hcons.1 hp).1
  refine ⟨chainWF_push _ _ _ _ _ hwf, ?_, ?_, ?_, ?_⟩
  · intro j s₂ hj
    rw [show (escalateState st i now s).signals
        = updateSig st.signals i (escalatedSig s now) from rfl] at hj
    by_cases hji : j = i
    · subst hji
      rw [lookupSig_update_self st.signals j s _ hl] at hj
      injection hj with hj
      subst hj
      refine ⟨hid, ?_⟩
      simp [SigConsistent, escalatedSig, hres0]
    · rw [lookupSig_update_other st.signals i j _ hji] at hj
      exact hids j s₂ hj
  · intro j
    rw [show (escalateState st i now s).chain
        = st.chain.push i EventType.ESCALATED_TO_TIER2 (encodeEscalation now) now
          from rfl, countFor_push, hrec j]
    rw [show (escalateState st i now s).signals
        = updateSig st.signals i (escalatedSig s now) from rfl]
    by_cases hji : j = i
    · subst hji
      rw [lookupSig_update_self st.signals j s _ hl]
      simp [hl]
    · rw [lookupSig_update_other st.signals i j _ hji]
      simp
  · intro j
    rw [show (escalateState st i now s).chain
        = st.chain.push i EventType.ESCALATED_TO_TIER2 (encodeEscalation now) now
          from rfl, countFor_push, hint j]
    rw [show (escalateState st i now s).signals
        = updateSig st.signals i (escalatedSig s now) from rfl]
    by_cases hji : j = i
    · subst hji
      rw [lookupSig_update_self st.signals j s _ hl, hl]
      simp [hp, escalatedSig]
    · rw [lookupSig_update_other st.signals i j _ hji]
      simp
  · intro j
    rw [show (escalateState st i now s).chain
        = st.chain.push i EventType.ESCALATED_TO_TIER2 (encodeEscalation now) now
          from rfl, countFor_push, hesc j]
    rw [show (escalateState st i now s).signals
        = updateSig st.signals i (escalatedSig s now) from rfl]
    by_cases hji : j = i
    · subst hji
      rw [lookupSig_update_self st.signals j s _ hl, hl]
      simp [hp, escalatedSig]
    · rw [lookupSig_update_other st.signals i j _ hji]
      simp [show ¬ (i = j) from fun e => hji e.symm]

lemma sysInv_of_step (st st' : SystemState) (hinv : SysInv st)
    (hstep : SysStep st st') : SysInv st' := by
  cases hstep with
  | intakeStep newId now p s stq hfresh heq =>
      cases hv : validPayload p with
      | false =>
          rw [intake_invalid_eq st newId now p hv] at heq
          exact absurd (congrArg Prod.fst heq) (by simp)
      | true =>
          rw [intake_valid_eq st newId now p hv] at heq
          have hst2 : intakeState st newId now p = st' := congrArg Prod.snd heq
          rw [← hst2]
          exact sysInv_intake st newId now p hinv hfresh
  | interveneStep i action staff_id notes now s stq heq =>
      cases hl : lookupSig st.signals i with
      | none =>
          rw [recordIntervention_notFound st i action staff_id notes now hl] at heq
          exact absurd (congrArg Prod.fst heq) (by simp)
      | some s₀ =>
          cases hp : decide (s₀.status = Status.PENDING) with
          | false =>
              have hnp : s₀.status ≠ Status.PENDING := of_decide_eq_false hp
              rw [recordIntervention_terminal st i action staff_id notes now s₀ hl hnp]
                at heq
              exact absurd (congrArg Prod.fst heq) (by simp)
          | true =>
              have hyp : s₀.status = Status.PENDING := of_decide_eq_true hp
              rw [recordIntervention_pending st i action staff_id notes now s₀ hl hyp]
                at heq
              have hst2 : interveneState st i action staff_id notes now s₀ = st' :=
                congrArg Prod.snd heq
              rw [← hst2]
              exact sysInv_intervene st i action staff_id notes now s₀ hinv hl hyp
  | escalateStep i now s stq heq =>
      cases hl : lookupSig st.signals i with
      | none =>
          rw [escalate_notFound st i now hl] at heq
          exact absurd (congrArg Prod.fst heq) (by simp)
      | some s₀ =>
          cases hp : decide (s₀.status = Status.PENDING) with
          | false =>
              have hnp : s₀.status ≠ Status.PENDING := of_decide_eq_false hp
              rw [escalate_terminal st i now s₀ hl hnp] at heq
              exact absurd (congrArg Prod.fst heq) (by simp)
          | true =>
              have hyp : s₀.status = Status.PENDING := of_decide_eq_true hp
              rw [escalate_pending st i now s₀ hl hyp] at heq
              have hst2 : escalateState st i now s₀ = st' := congrArg Prod.snd heq
              rw [← hst2]
              exact sysInv_escalate st i now s₀ hinv hl hyp

lemma sysInv_of_reachable (st : SystemState) (h : SysReachable st) : SysInv st := by
  induction h with
  | init => exact sysInv_init
  | step st st' _ hstep ih => exact sysInv_of_step st st' ih hstep

lemma terminal_frozen (st st' : SystemState) (i : String) (s : Signal)
    (hs : lookupSig st.signals i = some s) (ht : s.status ≠ Status.PENDING)
    (hstep : SysStep st st') : lookupSig st'.signals i = some s := by
  cases hstep with
  | intakeStep newId now p s₀ stq hfresh heq =>
      rcases Bool.eq_false_or_eq_true (validPayload p) with hv | hv
      · rw [intake_valid_eq st newId now p hv] at heq
        have hst2 : intakeState st newId now p = st' := congrArg Prod.snd heq
        rw [← hst2]
        simp only [intakeState, lookupSig]
        by_cases hni : newId = i
        · rw [hni] at hfresh
          rw [hfresh] at hs
          exact absurd hs (by simp)
        · rw [if_neg hni]
          exact hs
      · rw [intake_invalid_eq st newId now p hv] at heq
        exact absurd (congrArg Prod.fst heq) (by simp)
  | interveneStep i₀ action staff_id notes now s₀ stq heq =>
      cases hl : lookupSig st.signals i₀ with
      | none =>
          rw [recordIntervention_notFound st i₀ action staff_id notes now hl] at heq
          exact absurd (congrArg Prod.fst heq) (by simp)
      | some s₁ =>
          rcases Bool.eq_false_or_eq_true (decide (s₁.status = Status.PENDING))
            with hp | hp
          swap
          · have hnp : s₁.status ≠ Status.PENDING := of_decide_eq_false hp
            rw [recordIntervention_terminal st i₀ action staff_id notes now s₁ hl hnp]
              at heq
            exact absurd (congrArg Prod.fst heq) (by simp)
          · have hyp : s₁.status = Status.PENDING := of_decide_eq_true hp
            rw [recordIntervention_pending st i₀ action staff_id notes now s₁ hl hyp]
              at heq
            have hst2 : interveneState st i₀ action staff_id notes now s₁ = st' :=
              congrArg Prod.snd heq
            rw [← hst2]
            rw [show (interveneState st i₀ action staff_id notes now s₁).signals
                = updateSig st.signals i₀
                    (resolvedSig s₁ action staff_id notes now) from rfl]
            by_cases hii : i = i₀
            · subst hii
              rw [hl] at hs
              injection hs with hs
              rw [hs] at hyp
              exact absurd hyp ht
            · rw [lookupSig_update_other st.signals i₀ i _ hii]
              exact hs
  | escalateStep i₀ now s₀ stq heq =>
      cases hl : lookupSig st.signals i₀ with
      | none =>
          rw [escalate_notFound st i₀ now hl] at heq
          exact absurd (congrArg Prod.fst heq) (by simp)
      | some s₁ =>
          rcases Bool.eq_false_or_eq_true (decide (s₁.status = Status.PENDING))
            with hp | hp
          swap
          · have hnp : s₁.status ≠ Status.PENDING := of_decide_eq_false hp
            rw [escalate_terminal st i₀ now s₁ hl hnp] at heq
            exact absurd (congrArg Prod.fst heq) (by simp)
          · have hyp : s₁.status = Status.PENDING := of_decide_eq_true hp
            rw [escalate_pending st i₀ now s₁ hl hyp] at heq
            have hst2 : escalateState st i₀ now s₁ = st' := congrArg Prod.snd heq
            rw [← hst2]
            rw [show (escalateState st i₀ now s₁).signals
                = updateSig st.signals i₀ (escalatedSig s₁ now) from rfl]
            by_cases hii : i = i₀
            · subst hii
              rw [hl] at hs
              injection hs with hs
              rw [hs] at hyp
              exact absurd hyp ht
            · rw [lookupSig_update_other st.signals i₀ i _ hii]
              exact hs

/-- The at-most-one-transition property of a Signal `s` stored under id `i`:
resolution and escalation are never both present, a `PENDING` signal carries
neither, and once terminal the record survives every further operation
unchanged while mutation attempts fail. -/
def AtMostOneTransition (st : SystemState) (i : String) (s : Signal) : Prop :=
  (¬ (s.resolution.isSome ∧ s.escalation.isSome)) ∧
  (s.status = Status.PENDING → s.resolution = none ∧ s.escalation = none) ∧
  (s.status ≠ Status.PENDING →
    (∀ st', SysStep st st' → getSignal st' i = some s) ∧
    (∀ (action staff_id : String) (notes : Option String) (now : Nat),
      recordIntervention st i action staff_id notes now
        = (Except.error MRPError.AlreadyTerminal, st)) ∧
    (∀ now : Nat, escalate st i now = (none, st)))

/-- C3: a Signal's status transitions at most once.  It starts `PENDING`
(with no resolution or escalation details) and reaches at most one of
`RESOLVED` or `ESCALATED`, never both; once terminal, no operation changes
its status, resolution or escalation fields — every intervention attempt
fails with `AlreadyTerminal` and every escalation attempt is rejected. -/
theorem signal_at_most_one_transition (st : SystemState) (h : SysReachable st)
    (i : String) (s : Signal) (hs : getSignal st i = some s) :
    AtMostOneTransition st i s := by
  have hinv := sysInv_of_reachable st h
  have hcons := (hinv.2.1 i s hs).2
  refine ⟨?_, hcons.1, ?_⟩
  · rintro ⟨hr, he⟩
    cases hst : s.status with
    | PENDING =>
        obtain ⟨h1, h2⟩ := hcons.1 hst
        rw [h1] at hr
        simp at hr
    | RESOLVED =>
        obtain ⟨h1, h2⟩ := hcons.2.1 hst
        rw [h2] at he
        simp at he
    | ESCALATED =>
        obtain ⟨h1, h2⟩ := hcons.2.2 hst
        rw [h2] at hr
        simp at hr
  · intro hterm
    refine ⟨?_, ?_, ?_⟩
    · intro st' hstep
      exact terminal_frozen st st' i s hs hterm hstep
    · intro action staff_id notes now
      exact recordIntervention_terminal st i action staff_id notes now s hs hterm
    · intro now
      exact escalate_terminal st i now s hs hterm

/-- A concrete intake payload used by the witnesses. -/
def pEx : IntakePayload :=
  { subject_id := "S1", risk_type := "behavioral", severity := "CRITICAL",
    description := "student in distress", detected_by := "fuzie" }

/-- State after one intake. -/
def st1 : SystemState := (intake initState "S1" 0 pEx).2

/-- State after the intake and one intervention. -/
def st2 : SystemState := (recordIntervention st1 "S1" "Parent Contacted" "ST1" none 120).2

/-- The resolved example signal stored in `st2`. -/
def sRes : Signal := resolvedSig (mkSignal "S1" 0 pEx) "Parent Contacted" "ST1" none 120

lemma st1_reachable : SysReachable st1 :=
  SysReachable.step initState st1 SysReachable.init
    (SysStep.intakeStep initState "S1" 0 pEx (mkSignal "S1" 0 pEx) st1
      (by decide) (by decide))

lemma st2_reachable : SysReachable st2 :=
  SysReachable.step st1 st2 st1_reachable
    (SysStep.interveneStep st1 "S1" "Parent Contacted" "ST1" none 120 sRes st2
      (by decide))

/-- C3 witness: the property holds concretely for the resolved signal of a
two-operation run. -/
theorem signal_at_most_one_transition_witness :
    SysReachable st2 ∧ getSignal st2 "S1" = some sRes ∧
      AtMostOneTransition st2 "S1" sRes :=
  ⟨st2_reachable, by decide,
    signal_at_most_one_transition st2 st2_reachable "S1" sRes (by decide)⟩

/-- The 1:1 transition/audit pairing and atomic-failure property of a state:
each stored signal has exactly one `SIGNAL_RECEIVED` entry and exactly one
terminal-transition entry per transition undergone; unknown ids have no
entries; and every failed operation returns the state — signal store, chain
and chain head — unchanged. -/
def AtomicPairing (st : SystemState) : Prop :=
  (∀ i : String, countFor st.chain i EventType.SIGNAL_RECEIVED =
    (if (getSignal st i).isSome then 1 else 0)) ∧
  (∀ (i : String) (s : Signal), getSignal st i = some s →
    countFor st.chain i EventType.INTERVENTION_LOGGED
      = (if s.status = Status.RESOLVED then 1 else 0) ∧
    countFor st.chain i EventType.ESCALATED_TO_TIER2
      = (if s.status = Status.ESCALATED then 1 else 0)) ∧
  (∀ i : String, getSignal st i = none →
    countFor st.chain i EventType.INTERVENTION_LOGGED = 0 ∧
    countFor st.chain i EventType.ESCALATED_TO_TIER2 = 0) ∧
  (∀ (newId : String) (now : Nat) (p : IntakePayload) (e : MRPError),
    (intake st newId now p).1 = Except.error e → (intake st newId now p).2 = st) ∧
  (∀ (i action staff_id : String) (notes : Option String) (now : Nat) (e : MRPError),
    (recordIntervention st i action staff_id notes now).1 = Except.error e →
    (recordIntervention st i action staff_id notes now).2 = st) ∧
  (∀ (i : String) (now : Nat),
    (escalate st i now).1 = none → (escalate st i now).2 = st)

/-- C4: every state transition (creation at intake, `PENDING→RESOLVED`,
`PENDING→ESCALATED`) is paired 1:1 with exactly one committed audit entry,
and the pairing is atomic — in every reachable state the audit counts agree
exactly with the store, and a failed operation leaves both the signal store
and the chain (including its head) unchanged. -/
theorem transition_audit_pairing (st : SystemState) (h : SysReachable st) :
    AtomicPairing st := by
  obtain ⟨hwf, hids, hrec, hint, hesc⟩ := sysInv_of_reachable st h
  refine ⟨hrec, ?_, ?_, ?_, ?_, ?_⟩
  · intro i s hs
    constructor
    · rw [hint i, show getSignal st i = lookupSig st.signals i from rfl] at *
      rw [hs]
    · rw [hesc i, show getSignal st i = lookupSig st.signals i from rfl] at *
      rw [hs]
  · intro i hs
    constructor
    · rw [hint i, show getSignal st i = lookupSig st.signals i from rfl] at *
      rw [hs]
    · rw [hesc i, show getSignal st i = lookupSig st.signals i from rfl] at *
      rw [hs]
  · intro newId now p e hfail
    rcases Bool.eq_false_or_eq_true (validPayload p) with hv | hv
    · rw [intake_valid_eq st newId now p hv] at hfail
      simp at hfail
    · rw [intake_invalid_eq st newId now p hv]
  · intro i action staff_id notes now e hfail
    cases hl : lookupSig st.signals i with
    | none => rw [recordIntervention_notFound st i action staff_id notes now hl]
    | some s₁ =>
        rcases Bool.eq_false_or_eq_true (decide (s₁.status = Status.PENDING))
          with hp | hp
        · have hyp : s₁.status = Status.PENDING := of_decide_eq_true hp
          rw [recordIntervention_pending st i action staff_id notes now s₁ hl hyp]
            at hfail
          simp at hfail
        · have hnp : s₁.status ≠ Status.PENDING := of_decide_eq_false hp
          rw [recordIntervention_terminal st i action staff_id notes now s₁ hl hnp]
  · intro i now hfail
    cases hl : lookupSig st.signals i with
    | none => rw [escalate_notFound st i now hl]
    | some s₁ =>
        rcases Bool.eq_false_or_eq_true (decide (s₁.status = Status.PENDING))
          with hp | hp
        · have hyp : s₁.status = Status.PENDING := of_decide_eq_true hp
          rw [escalate_pending st i now s₁ hl hyp] at hfail
          simp at hfail
        · have hnp : s₁.status ≠ Status.PENDING := of_decide_eq_false hp
          rw [escalate_terminal st i now s₁ hl hnp]

/-- C4 witness: the pairing holds concretely after an intake followed by an
intervention. -/
theorem transition_audit_pairing_witness :
    SysReachable st2 ∧ AtomicPairing st2 :=
  ⟨st2_reachable, transition_audit_pairing st2 st2_reachable⟩

/-- C5: `recordIntervention` succeeds exactly when the signal exists and is
`PENDING`: unknown ids fail with `NotFound`, terminal signals fail with
`AlreadyTerminal` (both leaving the state unchanged), a `PENDING` signal is
resolved, and a second call after a successful first always fails with
`AlreadyTerminal`. -/
theorem intervention_succeeds_iff_pending (st : SystemState)
    (i action staff_id : String) (notes : Option String) (now : Nat) :
    (lookupSig st.signals i = none →
      recordIntervention st i action staff_id notes now
        = (Except.error MRPError.NotFound, st)) ∧
    (∀ s : Signal, lookupSig st.signals i = some s → s.status ≠ Status.PENDING →
      recordIntervention st i action staff_id notes now
        = (Except.error MRPError.AlreadyTerminal, st)) ∧
    (∀ s : Signal, lookupSig st.signals i = some s → s.status = Status.PENDING →
      recordIntervention st i action staff_id notes now
        = (Except.ok (resolvedSig s action staff_id notes now),
           interveneState st i action staff_id notes now s)) ∧
    (∀ (s₁ : Signal) (st₁ : SystemState),
      recordIntervention st i action staff_id notes now = (Except.ok s₁, st₁) →
      ∀ (action₂ staff₂ : String) (notes₂ : Option String) (now₂ : Nat),
        recordIntervention st₁ i action₂ staff₂ notes₂ now₂
          = (Except.error MRPError.AlreadyTerminal, st₁)) := by
  refine ⟨?_, ?_, ?_, ?_⟩
  · intro hl
    exact recordIntervention_notFound st i action staff_id notes now hl
  · intro s hl hnp
    exact recordIntervention_terminal st i action staff_id notes now s hl hnp
  · intro s hl hp
    exact recordIntervention_pending st i action staff_id notes now s hl hp
  · intro s₁ st₁ heq action₂ staff₂ notes₂ now₂
    cases hl : lookupSig st.signals i with
    | none =>
        rw [recordIntervention_notFound st i action staff_id notes now hl] at heq
        exact absurd (congrArg Prod.fst heq) (by simp)
    | some s₀ =>
        rcases Bool.eq_false_or_eq_true (decide (s₀.status = Status.PENDING))
          with hp | hp
        · have hyp : s₀.status = Status.PENDING := of_decide_eq_true hp
          rw [recordIntervention_pending st i action staff_id notes now s₀ hl hyp]
            at heq
          have hst1 : interveneState st i action staff_id notes now s₀ = st₁ :=
            congrArg Prod.snd heq
          have hl1 : lookupSig st₁.signals i
              = some (resolvedSig s₀ action staff_id notes now) := by
            rw [← hst1]
            exact lookupSig_update_self st.signals i s₀ _ hl
          exact recordIntervention_terminal st₁ i action₂ staff₂ notes₂ now₂ _ hl1
            (by simp [resolvedSig])
        · have hnp : s₀.status ≠ Status.PENDING := of_decide_eq_false hp
          rw [recordIntervention_terminal st i action staff_id notes now s₀ hl hnp]
            at heq
          exact absurd (congrArg Prod.fst heq) (by simp)

/-- C5 witness: on a concrete run, an unknown id yields `NotFound`, a second
intervention after a successful one yields `AlreadyTerminal`. -/
theorem intervention_succeeds_iff_pending_witness :
    recordIntervention st1 "S2" "a" "ST9" none 10
      = (Except.error MRPError.NotFound, st1) ∧
    recordIntervention st2 "S1" "a" "ST9" none 130
      = (Except.error MRPError.AlreadyTerminal, st2) :=
  ⟨(intervention_succeeds_iff_pending st1 "S2" "a" "ST9" none 10).1 (by decide),
   (intervention_succeeds_iff_pending st1 "S1" "Parent Contacted" "ST1" none
      120).2.2.2 sRes st2 (by decide) "a" "ST9" none 130⟩

/-- Whether an intake payload is malformed in the spec's sense: empty
subject or description, or a severity outside HIGH/CRITICAL. -/
def Malformed (p : IntakePayload) : Prop :=
  p.subject_id = "" ∨ p.description = "" ∨
    (p.severity ≠ "HIGH" ∧ p.severity ≠ "CRITICAL")

instance (p : IntakePayload) : Decidable (Malformed p) := by
  unfold Malformed
  infer_instance

/-- C6: `intake` fails with `ValidationError` — leaving the signal store and
audit chain completely unchanged — exactly when the payload is malformed;
otherwise it creates a `PENDING` Signal with `deadline = created_at + 600`,
appends exactly one `SIGNAL_RECEIVED` entry carrying the payload, registers a
timer for the deadline, and returns the created Signal. -/
theorem intake_validates_and_creates (st : SystemState) (newId : String)
    (now : Nat) (p : IntakePayload) :
    (validPayload p = false ↔ Malformed p) ∧
    (Malformed p →
      intake st newId now p = (Except.error MRPError.ValidationError, st)) ∧
    (¬ Malformed p →
      intake st newId now p
        = (Except.ok (mkSignal newId now p), intakeState st newId now p) ∧
      (mkSignal newId now p).status = Status.PENDING ∧
      (mkSignal newId now p).created_at = now ∧
      (mkSignal newId now p).deadline = now + FIXED_TIMEOUT ∧
      lookupSig (intakeState st newId now p).signals newId
        = some (mkSignal newId now p) ∧
      (intakeState st newId now p).chain.entries = st.chain.entries ++
        [(st.chain.appendEntry newId EventType.SIGNAL_RECEIVED (encodeIntake p)
            now).1] ∧
      (st.chain.appendEntry newId EventType.SIGNAL_RECEIVED (encodeIntake p)
          now).1.event_type = EventType.SIGNAL_RECEIVED ∧
      (st.chain.appendEntry newId EventType.SIGNAL_RECEIVED (encodeIntake p)
          now).1.signal_id = newId ∧
      (st.chain.appendEntry newId EventType.SIGNAL_RECEIVED (encodeIntake p)
          now).1.payload = encodeIntake p ∧
      (intakeState st newId now p).timers
        = (newId, now + FIXED_TIMEOUT) :: st.timers) := by
  have hiff : validPayload p = false ↔ Malformed p := by
    unfold validPayload Malformed
    simp only [decide_eq_false_iff_not]
    constructor
    · intro hn
      by_cases h1 : p.subject_id = ""
      · exact Or.inl h1
      · by_cases h2 : p.description = ""
        · exact Or.inr (Or.inl h2)
        · refine Or.inr (Or.inr ⟨?_, ?_⟩)
          · intro hH
            exact hn ⟨h1, h2, Or.inl hH⟩
          · intro hC
            exact hn ⟨h1, h2, Or.inr hC⟩
    · rintro (h1 | h2 | ⟨hH, hC⟩) ⟨g1, g2, g3⟩
      · exact g1 h1
      · exact g2 h2
      · rcases g3 with g | g
        · exact hH g
        · exact hC g
  refine ⟨hiff, ?_, ?_⟩
  · intro hm
    exact intake_invalid_eq st newId now p (hiff.mpr hm)
  · intro hm
    have hv : validPayload p = true := by
      rcases Bool.eq_false_or_eq_true (validPayload p) with h | h
      · exact h
      · exact absurd (hiff.mp h) hm
    refine ⟨intake_valid_eq st newId now p hv, rfl, rfl, rfl, ?_, rfl, rfl, rfl,
      rfl, rfl⟩
    simp [intakeState, lookupSig]

/-- A malformed example payload: its description is empty. -/
def pBad : IntakePayload :=
  { subject_id := "S1", risk_type := "r", severity := "CRITICAL",
    description := "", detected_by := "d" }

/-- C6 witness: a malformed payload (empty description) is rejected with the
state unchanged, and the concrete valid payload creates a `PENDING` signal. -/
theorem intake_validates_and_creates_witness :
    Malformed pBad ∧
    intake st1 "S9" 7 pBad = (Except.error MRPError.ValidationError, st1) ∧
    ¬ Malformed pEx ∧
    intake initState "S1" 0 pEx
      = (Except.ok (mkSignal "S1" 0 pEx), intakeState initState "S1" 0 pEx) :=
  ⟨Or.inr (Or.inl rfl),
   (intake_validates_and_creates st1 "S9" 7 pBad).2.1 (Or.inr (Or.inl rfl)),
   by decide,
   ((intake_validates_and_creates initState "S1" 0 pEx).2.2 (by decide)).1⟩

/-- C7: `escalate` applied to a `PENDING` signal transitions it to
`ESCALATED` and appends exactly one `ESCALATED_TO_TIER2` entry, after which
`recordIntervention` on that signal fails with `AlreadyTerminal`; applied to
a signal that is no longer `PENDING` (or unknown) it is a no-op that returns
without error and changes neither the signal store nor the audit chain. -/
theorem escalate_transitions_or_noop (st : SystemState) (i : String) (now : Nat) :
    (∀ s : Signal, lookupSig st.signals i = some s → s.status = Status.PENDING →
      escalate st i now = (some (escalatedSig s now), escalateState st i now s) ∧
      (escalatedSig s now).status = Status.ESCALATED ∧
      (escalateState st i now s).chain.entries = st.chain.entries ++
        [(st.chain.appendEntry i EventType.ESCALATED_TO_TIER2
            (encodeEscalation now) now).1] ∧
      (st.chain.appendEntry i EventType.ESCALATED_TO_TIER2 (encodeEscalation now)
          now).1.event_type = EventType.ESCALATED_TO_TIER2 ∧
      (st.chain.appendEntry i EventType.ESCALATED_TO_TIER2 (encodeEscalation now)
          now).1.signal_id = i ∧
      lookupSig (escalateState st i now s).signals i = some (escalatedSig s now) ∧
      (∀ (action staff_id : String) (notes : Option String) (now₂ : Nat),
        recordIntervention (escalateState st i now s) i action staff_id notes now₂
          = (Except.error MRPError.AlreadyTerminal, escalateState st i now s))) ∧
    (∀ s : Signal, lookupSig st.signals i = some s → s.status ≠ Status.PENDING →
      escalate st i now = (none, st)) ∧
    (lookupSig st.signals i = none → escalate st i now = (none, st)) := by
  refine ⟨?_, ?_, ?_⟩
  · intro s hl hp
    have hl' : lookupSig (escalateState st i now s).signals i
        = some (escalatedSig s now) := by
      rw [show (escalateState st i now s).signals
          = updateSig st.signals i (escalatedSig s now) from rfl]
      exact lookupSig_update_self st.signals i s _ hl
    refine ⟨escalate_pending st i now s hl hp, rfl, rfl, rfl, rfl, hl', ?_⟩
    intro action staff_id notes now₂
    exact recordIntervention_terminal _ i action staff_id notes now₂ _ hl'
      (by simp [escalatedSig])
  · intro s hl hnp
    exact escalate_terminal st i now s hl hnp
  · intro hl
    exact escalate_notFound st i now hl

/-- C7 witness: escalating the pending signal of `st1` succeeds and a
subsequent intervention fails; escalating the resolved signal of `st2` is a
no-op. -/
theorem escalate_transitions_or_noop_witness :
    escalate st1 "S1" 600
      = (some (escalatedSig (mkSignal "S1" 0 pEx) 600),
         escalateState st1 "S1" 600 (mkSignal "S1" 0 pEx)) ∧
    recordIntervention (escalateState st1 "S1" 600 (mkSignal "S1" 0 pEx)) "S1"
        "a" "ST9" none 700
      = (Except.error MRPError.AlreadyTerminal,
         escalateState st1 "S1" 600 (mkSignal "S1" 0 pEx)) ∧
    escalate st2 "S1" 600 = (none, st2) :=
  ⟨((escalate_transitions_or_noop st1 "S1" 600).1 (mkSignal "S1" 0 pEx)
      (by decide) (by decide)).1,
   ((escalate_transitions_or_noop st1 "S1" 600).1 (mkSignal "S1" 0 pEx)
      (by decide) (by decide)).2.2.2.2.2.2 "a" "ST9" none 700,
   (escalate_transitions_or_noop st2 "S1" 600).2.1 sRes (by decide) (by decide)⟩

/-- C8: when an intervention and a deadline fire race for the same `PENDING`
signal, each of the two arrival orders produces exactly one winner: the
first operation to flip the status succeeds and the loser observes a
terminal state — the scheduler side becomes a no-op, the intervention side
fails with `AlreadyTerminal`.  No signal is transitioned twice. -/
theorem race_exactly_one_winner (st : SystemState) (i action staff_id : String)
    (notes : Option String) (t₁ t₂ : Nat) (s : Signal)
    (hs : lookupSig st.signals i = some s) (hp : s.status = Status.PENDING) :
    (recordIntervention st i action staff_id notes t₁
        = (Except.ok (resolvedSig s action staff_id notes t₁),
           interveneState st i action staff_id notes t₁ s) ∧
      escalate (interveneState st i action staff_id notes t₁ s) i t₂
        = (none, interveneState st i action staff_id notes t₁ s)) ∧
    (escalate st i t₂ = (some (escalatedSig s t₂), escalateState st i t₂ s) ∧
      recordIntervention (escalateState st i t₂ s) i action staff_id notes t₁
        = (Except.error MRPError.AlreadyTerminal, escalateState st i t₂ s)) := by
  have hlr : lookupSig (interveneState st i action staff_id notes t₁ s).signals i
      = some (resolvedSig s action staff_id notes t₁) := by
    rw [show (interveneState st i action staff_id notes t₁ s).signals
        = updateSig st.signals i (resolvedSig s action staff_id notes t₁) from rfl]
    exact lookupSig_update_self st.signals i s _ hs
  have hle : lookupSig (escalateState st i t₂ s).signals i
      = some (escalatedSig s t₂) := by
    rw [show (escalateState st i t₂ s).signals
        = updateSig st.signals i (escalatedSig s t₂) from rfl]
    exact lookupSig_update_self st.signals i s _ hs
  refine ⟨⟨recordIntervention_pending st i action staff_id notes t₁ s hs hp, ?_⟩,
    ⟨escalate_pending st i t₂ s hs hp, ?_⟩⟩
  · exact escalate_terminal _ i t₂ _ hlr (by simp [resolvedSig])
  · exact recordIntervention_terminal _ i action staff_id notes t₁ _ hle
      (by simp [escalatedSig])

/-- C8 witness: the race property at the concrete pending signal of `st1`,
in both orders. -/
theorem race_exactly_one_winner_witness :
    lookupSig st1.signals "S1" = some (mkSignal "S1" 0 pEx) ∧
    (recordIntervention st1 "S1" "Parent Contacted" "ST1" none 120
        = (Except.ok (resolvedSig (mkSignal "S1" 0 pEx) "Parent Contacted" "ST1"
             none 120),
           interveneState st1 "S1" "Parent Contacted" "ST1" none 120
             (mkSignal "S1" 0 pEx)) ∧
      escalate (interveneState st1 "S1" "Parent Contacted" "ST1" none 120
          (mkSignal "S1" 0 pEx)) "S1" 600
        = (none, interveneState st1 "S1" "Parent Contacted" "ST1" none 120
            (mkSignal "S1" 0 pEx))) ∧
    (escalate st1 "S1" 600
        = (some (escalatedSig (mkSignal "S1" 0 pEx) 600),
           escalateState st1 "S1" 600 (mkSignal "S1" 0 pEx)) ∧
      recordIntervention (escalateState st1 "S1" 600 (mkSignal "S1" 0 pEx)) "S1"
          "Parent Contacted" "ST1" none 120
        = (Except.error MRPError.AlreadyTerminal,
           escalateState st1 "S1" 600 (mkSignal "S1" 0 pEx))) :=
  ⟨by decide,
   (race_exactly_one_winner st1 "S1" "Parent Contacted" "ST1" none 120 600
      (mkSignal "S1" 0 pEx) (by decide) (by decide)).1,
   (race_exactly_one_winner st1 "S1" "Parent Contacted" "ST1" none 120 600
      (mkSignal "S1" 0 pEx) (by decide) (by decide)).2⟩

/-- The JSON request body built by `AnonymousReportForm.handleSubmit`
(`src/unnamed/part_002`): `{ text, anonymous, user_id }` where `user_id` is
`anonymous ? null : (window.currentUser?.id ?? null)`. -/
structure ReportBody where
  text : String
  anonymous : Bool
  user_id : Option String
deriving DecidableEq

/-- `currentUser` models `window.currentUser?.id ?? null`: the logged-in
user's id when present, otherwise `none`. -/
def buildReportBody (report : String) (anonymous : Bool)
    (currentUser : Option String) : ReportBody :=
  { text := report, anonymous := anonymous,
    user_id := if anonymous then none else currentUser }

/-- The property names an object literal inherits from `Object.prototype`:
for these keys `endpointMap[domain]` yields a truthy inherited member (a
function, or for `__proto__` the prototype object itself), so the JS `||`
fallback does not apply. -/
def objectProtoProps : List String :=
  ["constructor", "hasOwnProperty", "isPrototypeOf", "propertyIsEnumerable",
   "toLocaleString", "toString", "valueOf", "__defineGetter__",
   "__defineSetter__", "__lookupGetter__", "__lookupSetter__", "__proto__"]

/-- A JS value observable as the `endpoint` argument of `fetch`: either a
string endpoint, or a truthy non-string member inherited from
`Object.prototype` (named by its key). -/
inductive JsValue where
  | str (s : String)
  | protoMember (name : String)
deriving DecidableEq

/-- The endpoint selection of `handleSubmit`
(`const endpoint = endpointMap[domain] || '/api/enterprise/workplace'`,
`src/unnamed/part_002` line 21): an own property of `endpointMap` wins;
otherwise JS property access walks the prototype chain, so a domain naming an
`Object.prototype` member yields that truthy inherited member and no fallback
occurs; only for the remaining domains (including an undefined prop, which
reads the absent key `undefined`) does `||` select the workplace fallback. -/
def endpointFor (domain : Option String) : JsValue :=
  if domain = some "workplace" then JsValue.str "/api/enterprise/workplace"
  else if domain = some "public_safety" then
    JsValue.str "/api/enterprise/public-safety"
  else if domain = some "commerce" then JsValue.str "/api/enterprise/commerce"
  else
    match domain with
    | some d =>
        if d ∈ objectProtoProps then JsValue.protoMember d
        else JsValue.str "/api/enterprise/workplace"
    | none => JsValue.str "/api/enterprise/workplace"

/-- The observable effect of one `handleSubmit` call: either no request and
no state change (the early return on blank report text), or a POST of the
body to the selected endpoint value. -/
inductive SubmitAction where
  | noop
  | request (endpoint : JsValue) (body : ReportBody)
deriving DecidableEq

/-- The ECMAScript `trim()` whitespace set (WhiteSpace and LineTerminator
code points): TAB, LF, VT, FF, CR, SPACE, NBSP, OGHAM SPACE MARK, the
EN QUAD..HAIR SPACE range, LS, PS, NARROW NBSP, MMSP, IDEOGRAPHIC SPACE and
BOM. -/
def jsWhitespace (c : Char) : Bool :=
  decide (c.toNat = 0x9 ∨ c.toNat = 0xA ∨ c.toNat = 0xB ∨ c.toNat = 0xC ∨
    c.toNat = 0xD ∨ c.toNat = 0x20 ∨ c.toNat = 0xA0 ∨ c.toNat = 0x1680 ∨
    (0x2000 ≤ c.toNat ∧ c.toNat ≤ 0x200A) ∨ c.toNat = 0x2028 ∨
    c.toNat = 0x2029 ∨ c.toNat = 0x202F ∨ c.toNat = 0x205F ∨
    c.toNat = 0x3000 ∨ c.toNat = 0xFEFF)

/-- The guard `!report.trim()` of `handleSubmit` (`src/unnamed/part_002`
line 11): the JS condition is truthy exactly when the report is empty or
consists only of `trim()`-strippable whitespace. -/
def blankReport (report : String) : Bool :=
  report.data.all jsWhitespace

/-- `handleSubmit` from `src/unnamed/part_002`: returns early when
`report.trim()` is empty, otherwise posts the body built from the report
text, the anonymous flag and the current user to the selected endpoint. -/
def handleSubmit (domain : Option String) (report : String) (anonymous : Bool)
    (currentUser : Option String) : SubmitAction :=
  if blankReport report then SubmitAction.noop
  else SubmitAction.request (endpointFor domain)
    (buildReportBody report anonymous currentUser)

/-- C9: with the anonymous checkbox checked, the request body's `user_id` is
null, and the whole submit action is a function only of the report text and
the domain — two runs that differ only in `window.currentUser` produce
identical requests. -/
theorem anonymous_submission_noninterference (domain : Option String)
    (report : String) (u₁ u₂ : Option String) :
    handleSubmit domain report true u₁ = handleSubmit domain report true u₂ ∧
    (∀ (endpoint : JsValue) (body : ReportBody),
      handleSubmit domain report true u₁ = SubmitAction.request endpoint body →
      body.user_id = none) := by
  constructor
  · unfold handleSubmit buildReportBody
    by_cases h : blankReport report
    · simp [h]
    · simp [h]
  · intro endpoint body h
    unfold handleSubmit at h
    by_cases ht : blankReport report
    · rw [if_pos ht] at h
      exact absurd h (by simp)
    · rw [if_neg ht] at h
      injection h with h1 h2
      rw [← h2]
      rfl

/-- C9 witness: a concrete anonymous submission carries `user_id = none`
regardless of the logged-in user. -/
theorem anonymous_submission_noninterference_witness :
    handleSubmit (some "workplace") "report text" true (some "alice")
      = handleSubmit (some "workplace") "report text" true (some "bob") ∧
    ({ text := "report text", anonymous := true, user_id := none } :
        ReportBody).user_id = none :=
  ⟨(anonymous_submission_noninterference (some "workplace") "report text"
      (some "alice") (some "bob")).1,
   (anonymous_submission_noninterference (some "workplace") "report text"
      (some "alice") (some "bob")).2
      (JsValue.str "/api/enterprise/workplace")
      { text := "report text", anonymous := true, user_id := none } (by decide)⟩

/-- C10 counterexample: the claim's universal fallback is false of the
program.  `"toString"` is none of the three mapped domains, yet
`endpointMap["toString"]` finds the truthy inherited `Object.prototype`
member, so the endpoint is not `/api/enterprise/workplace` and the submit
action is not the claimed fallback post. -/
theorem endpoint_fallback_counterexample :
    (some "toString" : Option String) ≠ some "workplace" ∧
    (some "toString" : Option String) ≠ some "public_safety" ∧
    (some "toString" : Option String) ≠ some "commerce" ∧
    endpointFor (some "toString") ≠ JsValue.str "/api/enterprise/workplace" ∧
    handleSubmit (some "toString") "hello" false none
      ≠ SubmitAction.request (JsValue.str "/api/enterprise/workplace")
          (buildReportBody "hello" false none) := by
  decide

/-- C10 (amended): `handleSubmit` maps the domain props `workplace`,
`public_safety` and `commerce` to their backend endpoints; for every other
domain value that is not the name of a property inherited from
`Object.prototype` (including an undefined prop) it falls back to
`/api/enterprise/workplace`; for a domain naming an inherited
`Object.prototype` member the lookup yields that truthy member and no
fallback occurs; and it returns without any request or state change exactly
when the report text is empty or whitespace-only. -/
theorem endpoint_mapping_and_blank_guard (domain : Option String)
    (report : String) (anonymous : Bool) (u : Option String) :
    endpointFor (some "workplace") = JsValue.str "/api/enterprise/workplace" ∧
    endpointFor (some "public_safety")
      = JsValue.str "/api/enterprise/public-safety" ∧
    endpointFor (some "commerce") = JsValue.str "/api/enterprise/commerce" ∧
    (domain ≠ some "workplace" → domain ≠ some "public_safety" →
      domain ≠ some "commerce" →
      (∀ d : String, domain = some d → d ∉ objectProtoProps) →
      endpointFor domain = JsValue.str "/api/enterprise/workplace") ∧
    (∀ d : String, domain = some d → d ∈ objectProtoProps →
      endpointFor domain = JsValue.protoMember d ∧
      endpointFor domain ≠ JsValue.str "/api/enterprise/workplace") ∧
    (blankReport report = true → handleSubmit domain report anonymous u
      = SubmitAction.noop) ∧
    (blankReport report = false → handleSubmit domain report anonymous u
      = SubmitAction.request (endpointFor domain)
          (buildReportBody report anonymous u)) := by
  refine ⟨rfl, rfl, rfl, ?_, ?_, ?_, ?_⟩
  · intro h1 h2 h3 hproto
    unfold endpointFor
    rw [if_neg h1, if_neg h2, if_neg h3]
    cases domain with
    | none => rfl
    | some d =>
        simp [hproto d rfl]
  · intro d hd hmem
    subst hd
    have h1 : ¬ ((some d : Option String) = some "workplace") := by
      intro h
      injection h with h
      subst h
      exact absurd hmem (by decide)
    have h2 : ¬ ((some d : Option String) = some "public_safety") := by
      intro h
      injection h with h
      subst h
      exact absurd hmem (by decide)
    have h3 : ¬ ((some d : Option String) = some "commerce") := by
      intro h
      injection h with h
      subst h
      exact absurd hmem (by decide)
    have hval : endpointFor (some d) = JsValue.protoMember d := by
      unfold endpointFor
      rw [if_neg h1, if_neg h2, if_neg h3]
      simp [hmem]
    refine ⟨hval, ?_⟩
    rw [hval]
    intro h
    exact JsValue.noConfusion h
  · intro ht
    unfold handleSubmit
    simp [ht]
  · intro ht
    unfold handleSubmit
    simp [ht]

/-- C10 witness: the concrete endpoints, the fallback on an unknown and on
an undefined domain, the non-fallback on an inherited property name, and the
blank-report guard (including a vertical-tab-only report). -/
theorem endpoint_mapping_and_blank_guard_witness :
    endpointFor (some "healthcare") = JsValue.str "/api/enterprise/workplace" ∧
    endpointFor none = JsValue.str "/api/enterprise/workplace" ∧
    endpointFor (some "valueOf") = JsValue.protoMember "valueOf" ∧
    handleSubmit (some "commerce") "\x0b \x0b" false (some "alice")
      = SubmitAction.noop ∧
    handleSubmit (some "commerce") "hello" false (some "alice")
      = SubmitAction.request (JsValue.str "/api/enterprise/commerce")
          { text := "hello", anonymous := false, user_id := some "alice" } :=
  ⟨(endpoint_mapping_and_blank_guard (some "healthcare") "x" false none).2.2.2.1
      (by decide) (by decide) (by decide)
      (fun d hd => by injection hd with h; subst h; decide),
   (endpoint_mapping_and_blank_guard none "x" false none).2.2.2.1
      (by decide) (by decide) (by decide)
      (fun d hd => Option.noConfusion hd),
   ((endpoint_mapping_and_blank_guard (some "valueOf") "x" false
      none).2.2.2.2.1 "valueOf" rfl (by decide)).1,
   (endpoint_mapping_and_blank_guard (some "commerce") "\x0b \x0b" false
      (some "alice")).2.2.2.2.2.1 (by decide),
   (endpoint_mapping_and_blank_guard (some "commerce") "hello" false
      (some "alice")).2.2.2.2.2.2 (by decide)⟩
